import Mathlib

/-
Verification of the route-optimization pipeline in `src/distanceapp.py`
(repository patel332/logistics-optimizer).

The shallow embedding below translates the pipeline of `get_optimized_route`
(lines 49-148), the savings/cost arithmetic of the display section
(lines 182-219), the address normalization of the run-button handler
(line 156) and the session-state update (lines 162-172) into Lean.

Modelling conventions:
- Python floats are modelled as `ℚ` (the arithmetic of the program is
  +, -, *, /, all exact on the values it manipulates).
- The three remote capabilities (pelias geocoding, VROOM optimization,
  directions) are parameters: each is a pure function returning
  `Except String _`, where `.error` models a raised exception of the
  client library and the `String` is the (abstracted) exception message.
- A raised-and-uncaught Python exception inside a pure computation is
  modelled as `Option.none` (used for the `ZeroDivisionError` of the
  fuel-cost line and the `IndexError` of a list subscript).
- Streamlit calls (`st.error`, `st.toast`, progress bars, `time.sleep`)
  are I/O with no effect on the computed values; they are dropped,
  except that the skipped-address toasts are recorded in a list so that
  the "records a skip" behaviour is visible.
-/

namespace DistanceApp

/-- A longitude/latitude pair, as produced by
`res['features'][0]['geometry']['coordinates']`. -/
abbrev Coord := ℚ × ℚ

/-- The `summary` object of a directions response:
`{distance: meters, duration: seconds}`. -/
structure RouteSummary where
  distance : ℚ
  duration : ℚ
deriving DecidableEq

/-- The failure surfaces of `get_optimized_route` (each `st.error` +
`return None, None, None, None` site).  Causes other than the offending
address of a geocoding failure are abstracted away. -/
inductive PipelineError where
  /-- line 73: `st.error(f"API Error on '{addr}': {e}")`. -/
  | geocodingFailed (address : String)
  /-- line 83: `st.error("Need at least 2 valid addresses to optimize.")`. -/
  | insufficientLocations
  /-- line 133: `st.error(f"Optimization failed: {e}")`. -/
  | optimizationFailed
  /-- line 147: `st.error(f"Directions failed: {e}")`. -/
  | directionsFailed
deriving DecidableEq

/-- One step of the solver response `opt_res['routes'][0]['steps']`.
The code only inspects `step['type'] == 'job'` and `step['id']`, so the
start/end markers collapse to `other`. -/
inductive Step where
  | job (id : ℕ)
  | other
deriving DecidableEq

/-- The job identifiers of a step list, in order (`step['id']` of the
steps with `step['type'] == 'job'`). -/
def jobIds : List Step → List ℕ
  | [] => []
  | .job id :: rest => id :: jobIds rest
  | .other :: rest => jobIds rest

/-- State accumulated by the geocoding loop (lines 53-54 and 66-70):
`coords`, `valid_addresses`, and the addresses skipped by the
`else` branch toast at line 70. -/
structure GeoAcc where
  coords : List Coord
  valid_addresses : List String
  skipped : List String
deriving DecidableEq

/-- The geocoding loop, lines 60-78.  `lookup` is
`client.pelias_search(text=addr, size=1)` returning the feature
coordinates list; `.error` models a raised exception.  A nonempty
feature list appends the top candidate to `coords` and the address to
`valid_addresses` (lines 66-68); an empty one records a skip (line 70);
an exception aborts the whole stage with the offending address
(lines 72-74). -/
def geocode (lookup : String → Except String (List Coord)) :
    List String → Except PipelineError GeoAcc
  | [] => .ok ⟨[], [], []⟩
  | addr :: rest =>
    match lookup addr with
    | .error _ => .error (.geocodingFailed addr)
    | .ok [] =>
      match geocode lookup rest with
      | .error e => .error e
      | .ok acc => .ok ⟨acc.coords, acc.valid_addresses, addr :: acc.skipped⟩
    | .ok (c :: _) =>
      match geocode lookup rest with
      | .error e => .error e
      | .ok acc => .ok ⟨c :: acc.coords, addr :: acc.valid_addresses, acc.skipped⟩

/-- The reconstruction loop, lines 123-128: for each step of type job,
`idx = step['id'] + 1`, append `coords[idx]` and `valid_addresses[idx]`.
`none` models the `IndexError` a Python out-of-range subscript raises
(caught by the surrounding `try` at line 132). -/
def reconstructSteps (coords : List Coord) (valid_addresses : List String) :
    List Step → Option (List Coord × List String)
  | [] => some ([], [])
  | .other :: rest => reconstructSteps coords valid_addresses rest
  | .job id :: rest =>
    match coords.get? (id + 1), valid_addresses.get? (id + 1) with
    | some c, some a =>
      match reconstructSteps coords valid_addresses rest with
      | some (cs, ls) => some (c :: cs, a :: ls)
      | none => none
    | _, _ => none

/-- The quadruple returned by a successful `get_optimized_route`
(line 145): the final directions summary (geometry abstracted to its
summary), `stop_order_display`, `ordered_coords`, and
`original_summary` (`none` models the empty dict `{}` left by a failed
baseline call). -/
structure RouteResult where
  route : RouteSummary
  stop_order_display : List String
  ordered_coords : List Coord
  original_summary : Option RouteSummary
deriving DecidableEq

/-- `get_optimized_route` (lines 49-148).  The remote capabilities are
passed as functions: `lookup` = pelias geocoding, `directionsJson` =
the baseline `client.directions(..., format=json)` call returning its
summary, `solve` = `client.optimization` for a vehicle with
start = end = depot and the given `(id, location)` jobs, and
`directionsGeo` = the final `client.directions(..., format=geojson)`
call, abstracted to its summary.  The baseline call (lines 88-101) is
best-effort: its failure leaves `original_summary` empty. -/
def get_optimized_route (lookup : String → Except String (List Coord))
    (directionsJson : List Coord → Except String RouteSummary)
    (solve : Coord → List (ℕ × Coord) → Except String (List Step))
    (directionsGeo : List Coord → Except String RouteSummary)
    (addresses : List String) : Except PipelineError RouteResult :=
  match geocode lookup addresses with
  | .error e => .error e
  | .ok acc =>
    match acc.coords with
    | c0 :: c1 :: crest =>
      match solve c0 ((c1 :: crest).enum) with
      | .error _ => .error .optimizationFailed
      | .ok steps =>
        match reconstructSteps (c0 :: c1 :: crest) acc.valid_addresses steps with
        | none => .error .optimizationFailed
        | some (stopCs, labels) =>
          match directionsGeo (c0 :: (stopCs ++ [c0])) with
          | .error _ => .error .directionsFailed
          | .ok summary =>
            .ok ⟨summary, labels, c0 :: (stopCs ++ [c0]),
                 match directionsJson ((c0 :: c1 :: crest) ++ [c0]) with
                 | .ok s => some s
                 | .error _ => none⟩
    | _ => .error .insufficientLocations

/-- Python `int(q)`: truncation toward zero. -/
def pyInt (q : ℚ) : ℤ := q.num.sign * ((q.num.natAbs / q.den : ℕ) : ℤ)

/-- Lines 192-205 of the display section: the displayed savings triple
`(saved_time_min, saved_dist_km, pct_saved)` computed from
`orig_stats` (the baseline summary; `none` = the empty dict of a failed
baseline call, which is falsy), the optimized `duration` and `dist_km`. -/
def savingsDisplay (orig_stats : Option RouteSummary)
    (duration dist_km : ℚ) : ℤ × ℚ × ℚ :=
  match orig_stats with
  | none => (0, 0, 0)
  | some o =>
    (pyInt ((o.duration - duration) / 60),
     o.distance / 1000 - dist_km,
     if 0 < o.duration then ((o.duration - duration) / o.duration) * 100 else 0)

/-- Line 189: `fuel_cost = (dist_km * 0.621371 / vehicle_mpg) * gas_price`.
`none` models the `ZeroDivisionError` Python raises when
`vehicle_mpg` is zero; there is no guard in the source. -/
def fuel_cost (dist_km vehicle_mpg gas_price : ℚ) : Option ℚ :=
  if vehicle_mpg = 0 then none
  else some ((dist_km * (621371 / 1000000) / vehicle_mpg) * gas_price)

/-- Python `str.strip`: drop leading and trailing whitespace.  Written
by structural recursion on the character list so that it evaluates
(the library `String.trim` is the same function but does not reduce
definitionally). -/
def strip (s : String) : String :=
  String.mk (((s.data.dropWhile Char.isWhitespace).reverse.dropWhile
      Char.isWhitespace).reverse)

/-- Python `str.split` on the newline character (`Char.ofNat 10`):
splits into fields, keeping empty ones, as `"a\n\nb".split` gives
`["a", "", "b"]` and `"".split` gives `[""]`. -/
def splitOnNl : List Char → List (List Char)
  | [] => [[]]
  | c :: rest =>
    match splitOnNl rest, decide (c = Char.ofNat 10) with
    | r, true => [] :: r
    | [], false => [[c]]
    | l :: ls, false => (c :: l) :: ls

/-- Line 156 of the run-button handler:
`addr_list = [line.strip() for line in raw_input.split(chr(10)) if line.strip()]`. -/
def addr_list (raw_input : String) : List String :=
  (((splitOnNl raw_input.data).map String.mk).map strip).filter (fun s => s ≠ "")

/-- The dict stored into `st.session_state['results']` (lines 166-172). -/
structure StoredResults where
  geojson : RouteSummary
  stops : List String
  coords : List Coord
  start_addr : String
  orig_stats : Option RouteSummary
deriving DecidableEq

/-- Lines 162-172: the run-button handler unpacks the pipeline result
and replaces `st.session_state['results']` only when `geojson_data` is
truthy (i.e. the run succeeded); on failure all four values are `None`
and the stored state is untouched.  `al.headD ""` stands for
`addr_list[0]`, only reached on the success path where the list is
nonempty. -/
def runButtonUpdate (prev : Option StoredResults) (al : List String)
    (res : Except PipelineError RouteResult) : Option StoredResults :=
  match res with
  | .error _ => prev
  | .ok r =>
    some ⟨r.route, r.stop_order_display, r.ordered_coords, al.headD "",
          r.original_summary⟩

/-! ## Concrete service fixtures used by witnesses and counterexamples -/

/-- A geocoder for which address `A` yields zero candidates while `B`
and any other address resolve. -/
def lookupSkipFirst : String → Except String (List Coord) := fun a =>
  if a = "A" then .ok []
  else if a = "B" then .ok [(1, 1)]
  else .ok [(2, 2)]

/-- A geocoder that resolves every address to the same coordinate. -/
def lookupAllOk : String → Except String (List Coord) := fun _ => .ok [(1, 2)]

/-- A geocoder whose transport fails on address `A`. -/
def lookupErrA : String → Except String (List Coord) := fun a =>
  if a = "A" then .error "service unavailable" else .ok [(1, 1)]

/-- A solver returning one job step per submitted job, in submission
order. -/
def solveAllJobs : Coord → List (ℕ × Coord) → Except String (List Step) :=
  fun _ jobs => .ok ((List.range jobs.length).map Step.job)

/-- A baseline directions service that always succeeds. -/
def djOk : List Coord → Except String RouteSummary := fun _ => .ok ⟨2000, 120⟩

/-- A final directions service that always succeeds. -/
def dgOk : List Coord → Except String RouteSummary := fun _ => .ok ⟨1000, 60⟩

/-- The result of the fully successful run on `["A", "B"]` with the
fixtures above. -/
def outOk : RouteResult :=
  ⟨⟨1000, 60⟩, ["B"], [(1, 2), (1, 2), (1, 2)], some ⟨2000, 120⟩⟩

/-! ## Helper lemmas about the geocoding loop -/

/-- After the loop, `coords` and `valid_addresses` have the same length
and are aligned: the coordinate at each index is the top candidate the
lookup returned for the address at the same index. -/
theorem geocode_align (lookup : String → Except String (List Coord))
    (addrs : List String) (acc : GeoAcc)
    (h : geocode lookup addrs = .ok acc) :
    acc.coords.length = acc.valid_addresses.length ∧
    ∀ i c a, acc.coords.get? i = some c →
      acc.valid_addresses.get? i = some a → ∃ tl, lookup a = .ok (c :: tl) := by
  induction addrs generalizing acc with
  | nil =>
    simp only [geocode] at h
    cases h
    simp
  | cons addr rest ih =>
    simp only [geocode] at h
    cases hl : lookup addr with
    | error m => rw [hl] at h; cases h
    | ok cands =>
      rw [hl] at h
      cases cands with
      | nil =>
        cases hg : geocode lookup rest with
        | error e => rw [hg] at h; cases h
        | ok acc2 =>
          rw [hg] at h
          cases h
          exact ih acc2 hg
      | cons c0 tl0 =>
        cases hg : geocode lookup rest with
        | error e => rw [hg] at h; cases h
        | ok acc2 =>
          rw [hg] at h
          cases h
          obtain ⟨hlen, hal⟩ := ih acc2 hg
          refine ⟨by simp [hlen], fun i c a hc ha => ?_⟩
          cases i with
          | zero =>
            simp only [List.get?_cons_zero, Option.some.injEq] at hc ha
            subst hc; subst ha
            exact ⟨tl0, hl⟩
          | succ i =>
            simp only [List.get?_cons_succ] at hc ha
            exact hal i c a hc ha

/-- The loop aborts only with a `geocodingFailed` error naming an input
address whose lookup raised. -/
theorem geocode_error_shape (lookup : String → Except String (List Coord))
    (addrs : List String) (e : PipelineError)
    (h : geocode lookup addrs = .error e) :
    ∃ a ∈ addrs, (∃ m, lookup a = .error m) ∧ e = .geocodingFailed a := by
  induction addrs generalizing e with
  | nil => simp only [geocode] at h; cases h
  | cons addr rest ih =>
    simp only [geocode] at h
    cases hl : lookup addr with
    | error m =>
      rw [hl] at h
      cases h
      exact ⟨addr, by simp, ⟨m, hl⟩, rfl⟩
    | ok cands =>
      rw [hl] at h
      have pass : geocode lookup rest = .error e := by
        cases cands with
        | nil =>
          cases hg : geocode lookup rest with
          | error e2 => rw [hg] at h; cases h; rfl
          | ok acc2 => rw [hg] at h; cases h
        | cons c0 tl0 =>
          cases hg : geocode lookup rest with
          | error e2 => rw [hg] at h; cases h; rfl
          | ok acc2 => rw [hg] at h; cases h
      obtain ⟨a, ha, hm, he⟩ := ih e pass
      exact ⟨a, by simp [ha], hm, he⟩

/-- The loop aborts exactly when some input address has a raising
lookup; zero-candidate lookups never abort it. -/
theorem geocode_error_exists_iff (lookup : String → Except String (List Coord))
    (addrs : List String) :
    (∃ e, geocode lookup addrs = .error e) ↔
      ∃ a ∈ addrs, ∃ m, lookup a = .error m := by
  constructor
  · rintro ⟨e, he⟩
    obtain ⟨a, ha, hm, _⟩ := geocode_error_shape lookup addrs e he
    exact ⟨a, ha, hm⟩
  · rintro ⟨a, ha, m, hm⟩
    induction addrs with
    | nil => simp at ha
    | cons addr rest ih =>
      simp only [geocode]
      cases hl : lookup addr with
      | error m0 => exact ⟨.geocodingFailed addr, rfl⟩
      | ok cands =>
        have ha2 : a ∈ rest := by
          rcases List.mem_cons.mp ha with h1 | h1
          · subst h1; rw [hm] at hl; cases hl
          · exact h1
        obtain ⟨e, he⟩ := ih ha2
        refine ⟨e, ?_⟩
        cases cands with
        | nil => rw [he]
        | cons c0 tl0 => rw [he]

/-- An address whose lookup succeeded with zero candidates is recorded
in the skip list whenever the loop completes. -/
theorem geocode_skipped_mem (lookup : String → Except String (List Coord))
    (addrs : List String) (acc : GeoAcc)
    (h : geocode lookup addrs = .ok acc) (a : String) (ha : a ∈ addrs)
    (hz : lookup a = .ok []) : a ∈ acc.skipped := by
  induction addrs generalizing acc with
  | nil => simp at ha
  | cons addr rest ih =>
    simp only [geocode] at h
    cases hl : lookup addr with
    | error m => rw [hl] at h; cases h
    | ok cands =>
      rw [hl] at h
      cases cands with
      | nil =>
        cases hg : geocode lookup rest with
        | error e => rw [hg] at h; cases h
        | ok acc2 =>
          rw [hg] at h
          cases h
          rcases List.mem_cons.mp ha with h1 | h1
          · subst h1; simp
          · simp [ih acc2 hg h1]
      | cons c0 tl0 =>
        cases hg : geocode lookup rest with
        | error e => rw [hg] at h; cases h
        | ok acc2 =>
          rw [hg] at h
          cases h
          rcases List.mem_cons.mp ha with h1 | h1
          · subst h1; rw [hz] at hl; simp at hl
          · exact ih acc2 hg h1

/-! ## Helper lemmas about the reconstruction loop -/

/-- A solver answer consisting of one job step per id of `l`, in order,
has exactly those job ids. -/
theorem jobIds_map_job (l : List ℕ) : jobIds (l.map Step.job) = l := by
  induction l with
  | nil => rfl
  | cons x xs ih => simp [jobIds, ih]

/-- Looking every id of `l` up in `xs` at `id + 1` keeps the length of
`l` when all these indices are in bounds. -/
theorem filterMap_get?_length {α : Type} (l : List ℕ) (xs : List α)
    (hb : ∀ id ∈ l, id + 1 < xs.length) :
    (l.filterMap (fun id => xs.get? (id + 1))).length = l.length := by
  induction l with
  | nil => rfl
  | cons x l2 ih =>
    have hx : x + 1 < xs.length := hb x (by simp)
    obtain ⟨c, hc⟩ : ∃ c, xs.get? (x + 1) = some c := ⟨_, List.get?_eq_get hx⟩
    have hc2 : xs[x + 1]? = some c := by rw [← List.get?_eq_getElem?]; exact hc
    simp [List.filterMap_cons, hc2, ih (fun id hid => hb id (by simp [hid]))]
    intro a hal
    rw [List.getElem?_eq_getElem (hb a (by simp [hal]))]
    rfl

/-- When every job id of the step list is in bounds, the reconstruction
loop succeeds and returns, in step order, the coordinate and the
address at index `id + 1` for each job step. -/
theorem reconstructSteps_spec (coords : List Coord) (valid : List String)
    (steps : List Step) (hlen : valid.length = coords.length)
    (hb : ∀ id ∈ jobIds steps, id + 1 < coords.length) :
    reconstructSteps coords valid steps =
      some ((jobIds steps).filterMap (fun id => coords.get? (id + 1)),
            (jobIds steps).filterMap (fun id => valid.get? (id + 1))) := by
  induction steps with
  | nil => simp [reconstructSteps, jobIds]
  | cons s rest ih =>
    cases s with
    | other =>
      simp only [reconstructSteps, jobIds]
      exact ih (fun id hid => hb id (by simp [jobIds, hid]))
    | job id =>
      have h1 : id + 1 < coords.length := hb id (by simp [jobIds])
      have h2 : id + 1 < valid.length := by rw [hlen]; exact h1
      obtain ⟨c, hc⟩ : ∃ c, coords.get? (id + 1) = some c :=
        ⟨_, List.get?_eq_get h1⟩
      obtain ⟨a, ha⟩ : ∃ a, valid.get? (id + 1) = some a :=
        ⟨_, List.get?_eq_get h2⟩
      have ihr := ih (fun i hi => hb i (by simp [jobIds, hi]))
      simp only [reconstructSteps, jobIds, hc, ha, ihr, List.filterMap_cons]

/-! ## Claims -/

/-- C1, counterexample: on the input list `["A", "B", "C"]` with a
geocoder that finds no candidate for `"A"` but resolves the others, the
run proceeds and the first element of `valid_addresses` is `"B"`, not
the submitted depot address `"A"`. -/
theorem C1_counterexample :
    ∃ acc, geocode lookupSkipFirst ["A", "B", "C"] = .ok acc ∧
      acc.valid_addresses.head? = some "B" ∧
      ["A", "B", "C"].head? = some "A" ∧
      (some "B" : Option String) ≠ some "A" :=
  ⟨⟨[(1, 1), (2, 2)], ["B", "C"], ["A"]⟩, rfl, rfl, rfl, by simp⟩

/-- C1, amended: the first element of `valid_addresses` is the depot
(first submitted) address whenever that address geocodes with at least
one candidate; its coordinate is the top candidate.  (When the first
address fails to resolve, the earliest resolved address takes its
place, as the counterexample shows.) -/
theorem C1_theorem (lookup : String → Except String (List Coord))
    (a : String) (rest : List String) (c : Coord) (tl : List Coord)
    (acc : GeoAcc) (hres : lookup a = .ok (c :: tl))
    (hok : geocode lookup (a :: rest) = .ok acc) :
    acc.valid_addresses.head? = some a ∧ acc.coords.head? = some c := by
  simp only [geocode] at hok
  rw [hres] at hok
  cases hg : geocode lookup rest with
  | error e => rw [hg] at hok; cases hok
  | ok acc2 => rw [hg] at hok; cases hok; simp

/-- C1, witness for the amended theorem at a concrete input. -/
theorem C1_witness :
    (GeoAcc.mk [(1, 2), (1, 2)] ["A", "B"] []).valid_addresses.head? =
      some "A" ∧
    (GeoAcc.mk [(1, 2), (1, 2)] ["A", "B"] []).coords.head? = some (1, 2) :=
  C1_theorem lookupAllOk "A" ["B"] (1, 2) []
    ⟨[(1, 2), (1, 2)], ["A", "B"], []⟩ rfl rfl

/-- C2: for a solver response whose job ids are in bounds, the
reconstruction produces exactly one label per job step, in step order;
the label of the step with id `id` is `valid_addresses[id + 1]` and the
paired coordinate is `coords[id + 1]`. -/
theorem C2_theorem (coords : List Coord) (valid : List String)
    (steps : List Step) (hlen : valid.length = coords.length)
    (hb : ∀ id ∈ jobIds steps, id + 1 < coords.length) :
    reconstructSteps coords valid steps =
      some ((jobIds steps).filterMap (fun id => coords.get? (id + 1)),
            (jobIds steps).filterMap (fun id => valid.get? (id + 1))) ∧
    ((jobIds steps).filterMap (fun id => valid.get? (id + 1))).length =
      (jobIds steps).length :=
  ⟨reconstructSteps_spec coords valid steps hlen hb,
   filterMap_get?_length (jobIds steps) valid (fun id hid => by
     rw [hlen]; exact hb id hid)⟩

/-- C2, witness: the solver answer `[job 1, end-marker, job 0]` over
three geocoded points yields labels `["C", "B"]` with the coordinates
of indices 2 and 1. -/
theorem C2_witness :
    reconstructSteps [(0, 0), (1, 1), (2, 2)] ["A", "B", "C"]
      [Step.job 1, Step.other, Step.job 0] =
      some ([(2, 2), (1, 1)], ["C", "B"]) := by
  have h := C2_theorem [(0, 0), (1, 1), (2, 2)] ["A", "B", "C"]
    [Step.job 1, Step.other, Step.job 0] rfl (by decide)
  exact h.1.trans rfl

/-- C5: whenever a baseline summary is present, the displayed
`pct_saved` equals `(baselineDuration - optimizedDuration) /
baselineDuration * 100` exactly when the baseline duration is positive,
and is 0 when the baseline duration is 0. -/
theorem C5_theorem (o : RouteSummary) (duration dist_km : ℚ) :
    (0 < o.duration →
      (savingsDisplay (some o) duration dist_km).2.2 =
        (o.duration - duration) / o.duration * 100) ∧
    (o.duration = 0 →
      (savingsDisplay (some o) duration dist_km).2.2 = 0) := by
  constructor
  · intro h
    simp [savingsDisplay, h]
  · intro h
    simp [savingsDisplay, h]

/-- C5, witness: a baseline of 200 s against an optimized 100 s shows
exactly (200 - 100) / 200 * 100 percent saved. -/
theorem C5_witness :
    (savingsDisplay (some ⟨1000, 200⟩) 100 1).2.2 = (200 - 100) / 200 * 100 :=
  (C5_theorem ⟨1000, 200⟩ 100 1).1 (by norm_num)

/-- C6: the geocoding stage aborts exactly when some lookup raises a
transport/service error, and then with a `geocodingFailed` error naming
an offending input address; a successful lookup with zero candidates
never aborts the batch, it records a skip and processing continues. -/
theorem C6_theorem (lookup : String → Except String (List Coord))
    (addrs : List String) :
    ((∃ e, geocode lookup addrs = .error e) ↔
      ∃ a ∈ addrs, ∃ m, lookup a = .error m) ∧
    (∀ e, geocode lookup addrs = .error e →
      ∃ a ∈ addrs, (∃ m, lookup a = .error m) ∧ e = .geocodingFailed a) ∧
    (∀ acc, geocode lookup addrs = .ok acc →
      ∀ a ∈ addrs, lookup a = .ok [] → a ∈ acc.skipped) :=
  ⟨geocode_error_exists_iff lookup addrs,
   fun e he => geocode_error_shape lookup addrs e he,
   fun acc hacc a ha hz => geocode_skipped_mem lookup addrs acc hacc a ha hz⟩

/-- C6, witness: a transport error on `"A"` aborts the stage, while a
zero-candidate `"A"` is recorded as skipped and the batch completes. -/
theorem C6_witness :
    (∃ e, geocode lookupErrA ["B", "A"] = .error e) ∧
    ("A" ∈ (GeoAcc.mk [(1, 1)] ["B"] ["A"]).skipped) := by
  constructor
  · exact (C6_theorem lookupErrA ["B", "A"]).1.mpr
      ⟨"A", by simp, "service unavailable", rfl⟩
  · exact (C6_theorem lookupSkipFirst ["A", "B"]).2.2
      ⟨[(1, 1)], ["B"], ["A"]⟩ rfl "A" (by simp) rfl

/-- C7, counterexample: `vehicle_mpg = -1 ≤ 0` does not fail fast: the
unguarded line 189 produces a (negative) fuel cost. -/
theorem C7_counterexample :
    fuel_cost 100 (-1) 3 = some (-(1864113 / 10000)) ∧
    (fuel_cost 100 (-1) 3).isSome = true := by
  refine ⟨?_, ?_⟩ <;> norm_num [fuel_cost]

/-- C7, amended: there is no guard: with `vehicle_mpg = 0` the division
raises `ZeroDivisionError` (modelled `none`, so no infinite or NaN cost
is produced), while a negative `vehicle_mpg` is accepted and yields the
formula value (a negative cost). -/
theorem C7_theorem (dist_km gas_price mpg : ℚ) (hm : mpg < 0) :
    fuel_cost dist_km 0 gas_price = none ∧
    fuel_cost dist_km mpg gas_price =
      some ((dist_km * (621371 / 1000000) / mpg) * gas_price) := by
  constructor
  · simp [fuel_cost]
  · unfold fuel_cost
    rw [if_neg (ne_of_lt hm)]

/-- C7, witness for the amended theorem at `mpg = -2`. -/
theorem C7_witness :
    fuel_cost 100 0 3 = none ∧
    fuel_cost 100 (-2) 3 = some ((100 * (621371 / 1000000) / (-2)) * 3) :=
  C7_theorem 100 3 (-2) (by norm_num)

/-- C8, counterexample: an empty normalized list makes the run fail
with `insufficientLocations` (the "Need at least 2 valid addresses"
error); the code has no `EmptyInput` error at all. -/
theorem C8_counterexample :
    addr_list "" = [] ∧
    get_optimized_route lookupAllOk djOk solveAllJobs dgOk (addr_list "") =
      .error .insufficientLocations := ⟨rfl, rfl⟩

/-- C8, amended: when normalization yields an empty address list the
pipeline fails with `insufficientLocations`, for every choice of the
remote services — i.e. before any remote call can influence the run. -/
theorem C8_theorem (raw : String)
    (lookup : String → Except String (List Coord))
    (directionsJson : List Coord → Except String RouteSummary)
    (solve : Coord → List (ℕ × Coord) → Except String (List Step))
    (directionsGeo : List Coord → Except String RouteSummary)
    (h : addr_list raw = []) :
    get_optimized_route lookup directionsJson solve directionsGeo
      (addr_list raw) = .error .insufficientLocations := by
  rw [h]
  rfl

/-- C8, witness: whitespace-only input normalizes to the empty list and
fails as the amended claim states. -/
theorem C8_witness :
    addr_list "  \n " = [] ∧
    get_optimized_route lookupAllOk djOk solveAllJobs dgOk
      (addr_list "  \n ") = .error .insufficientLocations :=
  ⟨rfl, C8_theorem "  \n " lookupAllOk djOk solveAllJobs dgOk rfl⟩

/-- C9: the stored results are replaced only by a successful run — on a
pipeline failure the previously stored value is returned unchanged (no
field is mutated), and on success the new value is wholesale and
independent of the previous one. -/
theorem C9_theorem (prev prev2 : Option StoredResults) (al : List String)
    (lookup : String → Except String (List Coord))
    (directionsJson : List Coord → Except String RouteSummary)
    (solve : Coord → List (ℕ × Coord) → Except String (List Step))
    (directionsGeo : List Coord → Except String RouteSummary) :
    (∀ e, get_optimized_route lookup directionsJson solve directionsGeo al =
        .error e →
      runButtonUpdate prev al
        (get_optimized_route lookup directionsJson solve directionsGeo al) =
        prev) ∧
    (∀ r, get_optimized_route lookup directionsJson solve directionsGeo al =
        .ok r →
      runButtonUpdate prev al
        (get_optimized_route lookup directionsJson solve directionsGeo al) =
        some ⟨r.route, r.stop_order_display, r.ordered_coords, al.headD "",
              r.original_summary⟩ ∧
      runButtonUpdate prev al
        (get_optimized_route lookup directionsJson solve directionsGeo al) =
        runButtonUpdate prev2 al
          (get_optimized_route lookup directionsJson solve directionsGeo al)) := by
  constructor
  · intro e he; rw [he]; rfl
  · intro r hr; rw [hr]; exact ⟨rfl, rfl⟩

/-- C9, witness: a failing run (transport error on `"A"`) leaves the
stored results untouched; a successful run replaces them regardless of
the previous value. -/
theorem C9_witness :
    runButtonUpdate (some ⟨⟨0, 0⟩, [], [], "", none⟩) ["A", "B"]
        (get_optimized_route lookupErrA djOk solveAllJobs dgOk ["A", "B"]) =
      some ⟨⟨0, 0⟩, [], [], "", none⟩ ∧
    runButtonUpdate none ["A", "B"]
        (get_optimized_route lookupAllOk djOk solveAllJobs dgOk ["A", "B"]) =
      some ⟨outOk.route, outOk.stop_order_display, outOk.ordered_coords,
            ["A", "B"].headD "", outOk.original_summary⟩ := by
  constructor
  · exact (C9_theorem (some ⟨⟨0, 0⟩, [], [], "", none⟩) none ["A", "B"]
      lookupErrA djOk solveAllJobs dgOk).1 (.geocodingFailed "A") rfl
  · exact ((C9_theorem none (some ⟨⟨0, 0⟩, [], [], "", none⟩) ["A", "B"]
      lookupAllOk djOk solveAllJobs dgOk).2 outOk rfl).1

/-- C10: after the geocoding loop, `coords` and `valid_addresses` have
equal length and are aligned index by index; hence for any step list
whose job ids lie in `0..len(coords) - 2`, every `valid_addresses[id+1]`
lookup of the reconstruction is in bounds and names the address whose
top geocoding candidate is `coords[id+1]`. -/
theorem C10_theorem (lookup : String → Except String (List Coord))
    (addrs : List String) (acc : GeoAcc) (steps : List Step)
    (h : geocode lookup addrs = .ok acc)
    (hb : ∀ id ∈ jobIds steps, id + 2 ≤ acc.coords.length) :
    acc.coords.length = acc.valid_addresses.length ∧
    ∀ id ∈ jobIds steps, ∃ a c tl,
      acc.valid_addresses.get? (id + 1) = some a ∧
      acc.coords.get? (id + 1) = some c ∧
      lookup a = .ok (c :: tl) := by
  obtain ⟨hlen, hal⟩ := geocode_align lookup addrs acc h
  refine ⟨hlen, fun id hid => ?_⟩
  have h1 : id + 1 < acc.coords.length := by have := hb id hid; omega
  have h2 : id + 1 < acc.valid_addresses.length := by rw [← hlen]; exact h1
  obtain ⟨c, hc⟩ : ∃ c, acc.coords.get? (id + 1) = some c :=
    ⟨_, List.get?_eq_get h1⟩
  obtain ⟨a, ha⟩ : ∃ a, acc.valid_addresses.get? (id + 1) = some a :=
    ⟨_, List.get?_eq_get h2⟩
  obtain ⟨tl, htl⟩ := hal (id + 1) c a hc ha
  exact ⟨a, c, tl, ha, hc, htl⟩

/-- C10, witness at the two-address run with the single job step 0. -/
theorem C10_witness :
    (GeoAcc.mk [(1, 2), (1, 2)] ["A", "B"] []).coords.length =
      (GeoAcc.mk [(1, 2), (1, 2)] ["A", "B"] []).valid_addresses.length ∧
    ∀ id ∈ jobIds [Step.job 0], ∃ a c tl,
      (GeoAcc.mk [(1, 2), (1, 2)] ["A", "B"] []).valid_addresses.get?
        (id + 1) = some a ∧
      (GeoAcc.mk [(1, 2), (1, 2)] ["A", "B"] []).coords.get? (id + 1) =
        some c ∧
      lookupAllOk a = .ok (c :: tl) :=
  C10_theorem lookupAllOk ["A", "B"] ⟨[(1, 2), (1, 2)], ["A", "B"], []⟩
    [Step.job 0] rfl (by decide)

/-- C4, counterexample: the display layer presents a failed baseline
(`orig_stats` empty/falsy) exactly like a successful baseline with zero
savings — both render the saved-values triple `(0, 0, 0)`, so the
absent-baseline case is conflated with saved values of 0. -/
theorem C4_counterexample :
    savingsDisplay none 100 50 = (0, 0, 0) ∧
    savingsDisplay (some ⟨50000, 100⟩) 100 50 = (0, 0, 0) ∧
    savingsDisplay none 100 50 = savingsDisplay (some ⟨50000, 100⟩) 100 50 := by
  refine ⟨rfl, ?_, ?_⟩ <;> norm_num [savingsDisplay, pyInt]

/-- C4, amended: a failing baseline call never aborts the run — a run
that succeeds with some baseline service still succeeds, with the very
same route summary, stop labels and ordered coordinates (hence the same
cost estimate), when the baseline service always raises; only
`original_summary` becomes empty.  (As the counterexample records, the
display then shows the same zeros as a zero-savings baseline.) -/
theorem C4_theorem (lookup : String → Except String (List Coord))
    (directionsJson : List Coord → Except String RouteSummary)
    (solve : Coord → List (ℕ × Coord) → Except String (List Step))
    (directionsGeo : List Coord → Except String RouteSummary)
    (addrs : List String) (out : RouteResult) (m : String)
    (h : get_optimized_route lookup directionsJson solve directionsGeo
      addrs = .ok out) :
    get_optimized_route lookup (fun _ => .error m) solve directionsGeo
      addrs = .ok { out with original_summary := none } := by
  unfold get_optimized_route at h
  cases hg : geocode lookup addrs with
  | error e => rw [hg] at h; cases h
  | ok acc =>
    rw [hg] at h
    dsimp only at h
    cases hcs : acc.coords with
    | nil => rw [hcs] at h; cases h
    | cons c0 ctl =>
      cases ctl with
      | nil => rw [hcs] at h; cases h
      | cons c1 crest =>
        rw [hcs] at h
        dsimp only at h
        cases hsol : solve c0 ((c1 :: crest).enum) with
        | error m2 => rw [hsol] at h; cases h
        | ok steps =>
          rw [hsol] at h
          dsimp only at h
          cases hr : reconstructSteps (c0 :: c1 :: crest)
              acc.valid_addresses steps with
          | none => rw [hr] at h; cases h
          | some p =>
            obtain ⟨stopCs, labels⟩ := p
            rw [hr] at h
            dsimp only at h
            cases hgeo : directionsGeo (c0 :: (stopCs ++ [c0])) with
            | error m3 => rw [hgeo] at h; cases h
            | ok summary =>
              rw [hgeo] at h
              dsimp only at h
              injection h with h2
              subst h2
              simp only [get_optimized_route, hg, hcs, hsol, hr, hgeo]

/-- C4, witness for the amended theorem: the successful two-address run
redone with an always-failing baseline returns the same plan with
`original_summary` empty. -/
theorem C4_witness :
    get_optimized_route lookupAllOk (fun _ => .error "baseline down")
      solveAllJobs dgOk ["A", "B"] =
      .ok { outOk with original_summary := none } :=
  C4_theorem lookupAllOk djOk solveAllJobs dgOk ["A", "B"] outOk
    "baseline down" rfl

/-- C3: in every successful run whose solver response has exactly one
job step per submitted job (job ids a permutation of `0..N-1` for the
`N` submitted stops), `ordered_coords` has length
`len(valid_addresses) + 1` and starts and ends with the depot
coordinate (the head of `coords`), and `stop_order_display` has length
`len(valid_addresses) - 1`. -/
theorem C3_theorem (lookup : String → Except String (List Coord))
    (directionsJson : List Coord → Except String RouteSummary)
    (solve : Coord → List (ℕ × Coord) → Except String (List Step))
    (directionsGeo : List Coord → Except String RouteSummary)
    (addrs : List String) (out : RouteResult)
    (h : get_optimized_route lookup directionsJson solve directionsGeo
      addrs = .ok out)
    (hs : ∀ c jobs steps, solve c jobs = .ok steps →
      (jobIds steps).Perm (List.range jobs.length)) :
    ∃ acc, geocode lookup addrs = .ok acc ∧
      out.ordered_coords.length = acc.valid_addresses.length + 1 ∧
      out.stop_order_display.length = acc.valid_addresses.length - 1 ∧
      ∃ depot, acc.coords.head? = some depot ∧
        out.ordered_coords.head? = some depot ∧
        out.ordered_coords.getLast? = some depot := by
  unfold get_optimized_route at h
  cases hg : geocode lookup addrs with
  | error e => rw [hg] at h; cases h
  | ok acc =>
    rw [hg] at h
    dsimp only at h
    cases hcs : acc.coords with
    | nil => rw [hcs] at h; cases h
    | cons c0 ctl =>
      cases ctl with
      | nil => rw [hcs] at h; cases h
      | cons c1 crest =>
        rw [hcs] at h
        dsimp only at h
        cases hsol : solve c0 ((c1 :: crest).enum) with
        | error m2 => rw [hsol] at h; cases h
        | ok steps =>
          rw [hsol] at h
          dsimp only at h
          cases hr : reconstructSteps (c0 :: c1 :: crest)
              acc.valid_addresses steps with
          | none => rw [hr] at h; cases h
          | some p =>
            obtain ⟨stopCs, labels⟩ := p
            rw [hr] at h
            dsimp only at h
            cases hgeo : directionsGeo (c0 :: (stopCs ++ [c0])) with
            | error m3 => rw [hgeo] at h; cases h
            | ok summary =>
              rw [hgeo] at h
              dsimp only at h
              injection h with h2
              subst h2
              have hperm := hs c0 ((c1 :: crest).enum) steps hsol
              have hlenJ : (jobIds steps).length = crest.length + 1 := by
                have hpl := hperm.length_eq
                simpa [List.enum_length] using hpl
              have hbnd : ∀ id ∈ jobIds steps,
                  id + 1 < (c0 :: c1 :: crest).length := by
                intro id hid
                have hmem : id ∈ List.range ((c1 :: crest).enum.length) :=
                  hperm.mem_iff.mp hid
                have hlt : id < crest.length + 1 := by
                  simpa [List.enum_length] using List.mem_range.mp hmem
                simp only [List.length_cons]
                omega
              obtain ⟨hlenA, _⟩ := geocode_align lookup addrs acc hg
              have hlenV : acc.valid_addresses.length = crest.length + 2 := by
                rw [← hlenA, hcs]; simp
              have hspec := reconstructSteps_spec (c0 :: c1 :: crest)
                acc.valid_addresses steps (by rw [hlenV]; simp) hbnd
              rw [hr] at hspec
              injection hspec with hpair
              injection hpair with hC hV
              have h1 : stopCs.length = (jobIds steps).length := by
                rw [hC]
                exact filterMap_get?_length _ _ hbnd
              have h2 : labels.length = (jobIds steps).length := by
                rw [hV]
                refine filterMap_get?_length _ _ (fun id hid => ?_)
                rw [hlenV]
                have hx := hbnd id hid
                simp only [List.length_cons] at hx
                omega
              refine ⟨acc, rfl, ?_, ?_, c0, ?_, rfl, ?_⟩
              · have hoc : (c0 :: (stopCs ++ [c0])).length =
                    stopCs.length + 2 := by simp
                dsimp only
                omega
              · dsimp only
                omega
              · rw [hcs]; rfl
              · show (c0 :: (stopCs ++ [c0])).getLast? = some c0
                rw [show c0 :: (stopCs ++ [c0]) =
                  (c0 :: stopCs) ++ [c0] from rfl]
                exact List.getLast?_concat _

/-- C3, witness at the fully successful two-address run with the
one-step-per-job solver. -/
theorem C3_witness :
    ∃ acc, geocode lookupAllOk ["A", "B"] = .ok acc ∧
      outOk.ordered_coords.length = acc.valid_addresses.length + 1 ∧
      outOk.stop_order_display.length = acc.valid_addresses.length - 1 ∧
      ∃ depot, acc.coords.head? = some depot ∧
        outOk.ordered_coords.head? = some depot ∧
        outOk.ordered_coords.getLast? = some depot :=
  C3_theorem lookupAllOk djOk solveAllJobs dgOk ["A", "B"] outOk rfl
    (fun c jobs steps hst => by
      injection hst with h1
      rw [← h1, jobIds_map_job])

end DistanceApp
